import Mathlib

/-!
A verification development for the proactive-message scheduling core of the
wechat-custom-chatbot repository.  The Python source (`bot/policy.py`,
`bot/utils.py`, `bot/db.py`, `bot/main.py`, `bot/scheduler.py`) is shallowly
embedded: local and UTC instants are integers counting seconds, a time-of-day
is the instant modulo 86400 seconds, the configured timezone is modelled as a
fixed UTC offset in seconds, the SQLite tables are lists of row records, and
the outbound connector is modelled by an outbox list plus boolean success
oracles.  Python exceptions are modelled by a success flag paired with the
state reached before the raise.
-/

/-- Seconds-of-day component of a local instant, i.e. the `time()` part of a
Python `datetime` at one-second granularity (`bot/policy.py` reads
`candidate.timetz()`).  Uses Euclidean mod, matching Python's floor mod. -/
def todOf (t : Int) : Nat := (t % 86400).toNat

/-- Models `t.replace(hour=h, minute=m, second=0, microsecond=0)` keeps only the
whole minutes of a seconds-of-day value `e`: `(e / 3600)*3600 + ((e % 3600) / 60)*60`,
which equals `e / 60 * 60`. -/
def truncMin (e : Nat) : Nat := e / 60 * 60

/-- A quiet block from `bot/policy.py` (`QuietBlock`): start and end
time-of-day in seconds.  `stop` stands for the Python field `end`, which is a
Lean keyword.  If `start > stop` the block wraps past midnight. -/
structure QuietBlock where
  start : Nat
  stop : Nat
deriving DecidableEq, Repr

/-- Models `is_within_quiet_hours` from `bot/policy.py`: the time-of-day of
`local_dt` lies in some block, with inclusive start and exclusive end, and
midnight wrap when `start > end`. -/
def is_within_quiet_hours (t : Int) (blocks : List QuietBlock) : Bool :=
  blocks.any fun b =>
    if b.start ≤ b.stop then
      decide (b.start ≤ todOf t ∧ todOf t < b.stop)
    else
      decide (b.start ≤ todOf t ∨ todOf t < b.stop)

/-- One pass of the inner `for block in blocks` loop of `next_allowed_time`
(`bot/policy.py`): the first block containing the candidate's time-of-day
yields the jumped candidate (the loop `break`s on the first match); `none`
means no block matched (`moved` stayed false).  The jump sets the clock to
the block's end hour and minute with seconds zeroed, on the same day, except
in the wrapping `local_time >= block.start` case which first adds one day. -/
def find_jump (t : Int) : List QuietBlock → Option Int
  | [] => none
  | b :: bs =>
    if b.start ≤ b.stop then
      if b.start ≤ todOf t ∧ todOf t < b.stop then
        some (t - (todOf t : Int) + (truncMin b.stop : Int))
      else find_jump t bs
    else if b.start ≤ todOf t then
      some (t - (todOf t : Int) + 86400 + (truncMin b.stop : Int))
    else if todOf t < b.stop then
      some (t - (todOf t : Int) + (truncMin b.stop : Int))
    else find_jump t bs

/-- The bounded outer loop of `next_allowed_time`: up to `fuel` iterations,
each taking at most one jump, stopping early when no block matches. -/
def next_allowed_aux : Nat → Int → List QuietBlock → Int
  | 0, t, _ => t
  | Nat.succ n, t, blocks =>
    match find_jump t blocks with
    | none => t
    | some t2 => next_allowed_aux n t2 blocks

/-- Models `next_allowed_time` from `bot/policy.py`: the 5-iteration advancement
loop. -/
def next_allowed_time (t : Int) (blocks : List QuietBlock) : Int :=
  next_allowed_aux 5 t blocks

/-- Models `MIN_SCHEDULE_DELAY` (60 seconds) from `bot/policy.py`. -/
def MIN_SCHEDULE_DELAY : Int := 60

/-- Models `ensure_min_delay` from `bot/utils.py`. -/
def ensure_min_delay (dt base minDelay : Int) : Int :=
  if dt < base + minDelay then base + minDelay else dt

/-- Models `sanitize_schedule_time` from `bot/policy.py`: bump to the minimum delay,
then advance out of quiet hours if needed. -/
def sanitize_schedule_time (sendAt localNow : Int) (blocks : List QuietBlock) : Int :=
  let s := ensure_min_delay sendAt localNow MIN_SCHEDULE_DELAY
  if is_within_quiet_hours s blocks then next_allowed_time s blocks else s

/-- Plan status literals, plain strings as in the SQLite schema of
`bot/db.py`. -/
def STATUS_PENDING : String := "pending"

/-- Terminal status written by `mark_plan_sent`. -/
def STATUS_SENT : String := "sent"

/-- Terminal status written by `mark_plan_canceled` / `cancel_all_plans`. -/
def STATUS_CANCELED : String := "canceled"

/-- A row of the `plans` table (`bot/db.py`, `_init_db`). -/
structure PlanRow where
  id : Nat
  chatId : String
  sendAtUtc : Int
  text : String
  gifTag : Option String
  status : String
  reason : String
  confidence : Rat
  createdAtUtc : Int
  updatedAtUtc : Int
deriving DecidableEq, Repr

/-- A row of the `conversations` table (`bot/db.py`).  `dailyDate` is the
local calendar date the counter applies to, modelled as a day number
(local seconds divided by 86400), `none` for SQL NULL. -/
structure ConvRow where
  chatId : String
  chatType : String
  summary : String
  lastUserTsUtc : Option Int
  lastBotTsUtc : Option Int
  dailyCount : Nat
  dailyDate : Option Int
deriving DecidableEq, Repr

/-- A row of the `messages` table (`bot/db.py`). -/
structure MsgRow where
  chatId : String
  senderId : String
  role : String
  tsUtc : Int
  content : String
  msgType : String
deriving DecidableEq, Repr

/-- The mutable world shared by the request path and the execution loop: the
three SQLite tables of `BotDB`, the AUTOINCREMENT counter for plan ids, and
an outbox recording every `(chat_id, content)` the connector successfully
dispatched. -/
structure BotState where
  plans : List PlanRow
  convs : List ConvRow
  messages : List MsgRow
  nextPlanId : Nat
  outbox : List (String × String)
deriving DecidableEq, Repr

/-- Status of the plan row with a given id: the SQLite row lookup
`WHERE id = ?` on a list of rows (first match). -/
def statusOf (l : List PlanRow) (pid : Nat) : Option String :=
  (l.find? fun p => p.id == pid).map fun p => p.status

/-- Send time of the plan row with a given id. -/
def sendAtOf (l : List PlanRow) (pid : Nat) : Option Int :=
  (l.find? fun p => p.id == pid).map fun p => p.sendAtUtc

/-- Models `BotDB.get_conversation` (`bot/db.py`): `none` models the
`RuntimeError("Conversation not found")`. -/
def get_conversation (st : BotState) (chatId : String) : Option ConvRow :=
  st.convs.find? fun c => c.chatId == chatId

/-- Models `BotDB.update_daily_counter` (`bot/db.py`). -/
def update_daily_counter (st : BotState) (chatId : String) (dailyCount : Nat)
    (dailyDate : Int) : BotState :=
  { st with convs := st.convs.map fun c =>
      if c.chatId = chatId then
        { c with dailyCount := dailyCount, dailyDate := some dailyDate }
      else c }

/-- Models `BotDB.update_last_bot_ts` (`bot/db.py`). -/
def update_last_bot_ts (st : BotState) (chatId : String) (tsUtc : Int) : BotState :=
  { st with convs := st.convs.map fun c =>
      if c.chatId = chatId then { c with lastBotTsUtc := some tsUtc } else c }

/-- Models `BotDB.add_message` (`bot/db.py`). -/
def add_message (st : BotState) (chatId senderId role : String) (tsUtc : Int)
    (content msgType : String) : BotState :=
  { st with messages := st.messages ++
      [{ chatId := chatId, senderId := senderId, role := role, tsUtc := tsUtc,
         content := content, msgType := msgType }] }

/-- Models `BotDB.cancel_all_plans` (`bot/db.py`): `UPDATE plans SET status='canceled'
WHERE chat_id = ? AND status = 'pending'`. -/
def cancel_all_plans (st : BotState) (chatId : String) (nowUtc : Int) : BotState :=
  { st with plans := st.plans.map fun p =>
      if p.chatId = chatId ∧ p.status = STATUS_PENDING then
        { p with status := STATUS_CANCELED, updatedAtUtc := nowUtc }
      else p }

/-- An `UPDATE plans ... WHERE id = ?` row transform: apply `g` to the rows
whose id matches, leave the others. -/
def upd_plan (planId : Nat) (g : PlanRow → PlanRow) (p : PlanRow) : PlanRow :=
  if p.id = planId then g p else p

/-- Models `BotDB.mark_plan_sent` (`bot/db.py`): `UPDATE plans SET status='sent',
updated_at_utc=? WHERE id = ?` — note: no guard on the current status. -/
def mark_plan_sent (st : BotState) (planId : Nat) (nowUtc : Int) : BotState :=
  { st with plans := st.plans.map <| upd_plan planId fun p =>
      { p with status := STATUS_SENT, updatedAtUtc := nowUtc } }

/-- Models `BotDB.mark_plan_canceled` (`bot/db.py`): `UPDATE plans SET
status='canceled', updated_at_utc=? WHERE id = ?` — no guard on status. -/
def mark_plan_canceled (st : BotState) (planId : Nat) (nowUtc : Int) : BotState :=
  { st with plans := st.plans.map <| upd_plan planId fun p =>
      { p with status := STATUS_CANCELED, updatedAtUtc := nowUtc } }

/-- Models `BotDB.reschedule_plan` (`bot/db.py`): `UPDATE plans SET send_at_utc=?,
updated_at_utc=? WHERE id = ?` — status untouched, and no guard on status. -/
def reschedule_plan (st : BotState) (planId : Nat) (sendAtUtc nowUtc : Int) : BotState :=
  { st with plans := st.plans.map <| upd_plan planId fun p =>
      { p with sendAtUtc := sendAtUtc, updatedAtUtc := nowUtc } }

/-- The tuple `(send_at_utc, text, gif_tag, reason, confidence)` passed to
`replace_plans` / `append_plans` by `bot/main.py`. -/
def PlanTuple : Type := Int × String × Option String × String × Rat

/-- One `INSERT INTO plans ... VALUES (..., 'pending', ...)` as in
`add_plan` / `replace_plans` / `append_plans` of `bot/db.py`; the id comes
from the AUTOINCREMENT counter. -/
def insert_plan (st : BotState) (chatId : String) (tup : PlanTuple)
    (nowUtc : Int) : BotState :=
  { st with
    plans := st.plans ++
      [{ id := st.nextPlanId, chatId := chatId, sendAtUtc := tup.1,
         text := tup.2.1, gifTag := tup.2.2.1, status := STATUS_PENDING,
         reason := tup.2.2.2.1, confidence := tup.2.2.2.2,
         createdAtUtc := nowUtc, updatedAtUtc := nowUtc }],
    nextPlanId := st.nextPlanId + 1 }

/-- Models `BotDB.replace_plans` (`bot/db.py`): inside one transaction, cancel every
pending plan of the chat, then insert the given plans as `pending`. -/
def replace_plans (st : BotState) (chatId : String) (plans : List PlanTuple)
    (nowUtc : Int) : BotState :=
  plans.foldl (fun s tup => insert_plan s chatId tup nowUtc)
    (cancel_all_plans st chatId nowUtc)

/-- Models `BotDB.append_plans` (`bot/db.py`): insert the given plans as `pending`
without touching existing ones. -/
def append_plans (st : BotState) (chatId : String) (plans : List PlanTuple)
    (nowUtc : Int) : BotState :=
  plans.foldl (fun s tup => insert_plan s chatId tup nowUtc) st

/-- Models `BotDB.count_pending_plans` (`bot/db.py`): `SELECT COUNT(*) ... WHERE
chat_id = ? AND status = 'pending'`. -/
def count_pending_plans (st : BotState) (chatId : String) : Nat :=
  st.plans.countP fun p => decide (p.chatId = chatId ∧ p.status = STATUS_PENDING)

/-- Ordering used by the `ORDER BY send_at_utc ASC` queries. -/
def plan_le (p q : PlanRow) : Prop := p.sendAtUtc ≤ q.sendAtUtc

instance : DecidableRel plan_le := fun p q =>
  inferInstanceAs (Decidable (p.sendAtUtc ≤ q.sendAtUtc))

instance : IsTotal PlanRow plan_le := ⟨fun p q => Int.le_total p.sendAtUtc q.sendAtUtc⟩

instance : IsTrans PlanRow plan_le := ⟨fun _ _ _ h h2 => le_trans h h2⟩

/-- Models `BotDB.get_pending_plans` (`bot/db.py`). -/
def get_pending_plans (st : BotState) (chatId : String) : List PlanRow :=
  (st.plans.filter fun p => decide (p.chatId = chatId ∧ p.status = STATUS_PENDING)).insertionSort plan_le

/-- Models `BotDB.get_due_plans` (`bot/db.py`): `SELECT * FROM plans WHERE status =
'pending' AND send_at_utc <= ? ORDER BY send_at_utc ASC LIMIT ?`. -/
def get_due_plans (st : BotState) (nowUtc : Int) (limit : Nat) : List PlanRow :=
  ((st.plans.filter fun p =>
      decide (p.status = STATUS_PENDING ∧ p.sendAtUtc ≤ nowUtc)).insertionSort plan_le).take limit

/-- Models `get_due_plans` as called with Python's default argument `limit = 50`
(the execution loop in `bot/scheduler.py` passes no limit). -/
def get_due_plans_default (st : BotState) (nowUtc : Int) : List PlanRow :=
  get_due_plans st nowUtc 50

/-- The configuration consumed by the scheduling core (`bot/config.py`:
`ProactiveConfig`, `GroupConfig`, plus the parsed `quiet_hours` and the
timezone).  The IANA timezone is modelled as a fixed UTC offset in seconds
(`tzOffset`), so `astimezone` conversions add or subtract the offset;
confidence thresholds are rationals (`float` in the source). -/
structure Settings where
  proactiveEnabled : Bool
  maxPerDay : Nat
  cooldownHours : Int
  minConfidence : Rat
  maxPendingPerChat : Nat
  groupsAllowProactive : Bool
  quietBlocks : List QuietBlock
  tzOffset : Int
deriving Repr

/-- Models `should_schedule_proactive` from `bot/policy.py`. -/
def should_schedule_proactive (S : Settings) (chatType : String) : Bool :=
  if ¬ S.proactiveEnabled then false
  else if chatType = "group" ∧ ¬ S.groupsAllowProactive then false
  else true

/-- The model's candidate plan item (`LLMPlanItem` in `bot/models.py`).
`sendAtParsed` abstracts the raw ISO-8601 `send_at` string by the result of
`parse_send_at` (`bot/policy.py`): `some t` is the parsed local instant
(naive values already defaulted to the configured timezone), `none` means the
string was unparsable. -/
structure LLMPlanItem where
  sendAtParsed : Option Int
  text : String
  gifTag : Option String
  reason : String
  confidence : Rat
deriving Repr

/-- Models `can_use_plan` from `bot/policy.py`. -/
def can_use_plan (item : LLMPlanItem) (S : Settings) : Bool :=
  S.minConfidence ≤ item.confidence

/-- Models `parse_send_at` from `bot/policy.py`, at the level of this embedding: the
ISO-8601 string parsing is abstracted to its outcome carried by the item. -/
def parse_send_at (item : LLMPlanItem) : Option Int := item.sendAtParsed

/-- The message text of a plan: `plan_item.text.strip() or "(empty)"` in
`bot/main.py` (whitespace stripping is not modelled). -/
def plan_text (item : LLMPlanItem) : String :=
  if item.text = "" then "(empty)" else item.text

/-- The cooldown clamp of `_apply_planning` (`bot/main.py` lines 100–106):
with a last-bot-send instant recorded (Python truthiness: non-null and
non-zero), a desired local send time earlier than `last_bot + cooldown_hours`
(converted to local time) is moved forward to that boundary. -/
def clamp_cooldown (S : Settings) (lastBotTsUtc : Option Int) (desired : Int) : Int :=
  match lastBotTsUtc with
  | some t =>
    if t ≠ 0 then
      let cooldownUntilLocal := t + S.cooldownHours * 3600 + S.tzOffset
      if desired < cooldownUntilLocal then cooldownUntilLocal else desired
    else desired
  | none => desired

/-- The tail of `_apply_planning` (`bot/main.py` lines 98–125) once a parsed
desired local send time is at hand: clamp by cooldown, sanitize, convert to
UTC, build the plan tuple and dispatch by action. -/
def apply_planning_dispatch (S : Settings) (chatId : String) (action : String)
    (it : LLMPlanItem) (desired : Int) (pendingCount : Nat) (conv : ConvRow)
    (nowUtc : Int) (st : BotState) : BotState :=
  let localNow := nowUtc + S.tzOffset
  let clamped := clamp_cooldown S conv.lastBotTsUtc desired
  let sendAtLocal := sanitize_schedule_time clamped localNow S.quietBlocks
  let sendAtUtc := sendAtLocal - S.tzOffset
  let tup : PlanTuple :=
    (sendAtUtc, plan_text it, it.gifTag, it.reason, it.confidence)
  if action = "replace_all" then replace_plans st chatId [tup] nowUtc
  else if action = "append" then
    if S.maxPendingPerChat ≤ pendingCount then st
    else append_plans st chatId [tup] nowUtc
  else st

/-- The policy-guard chain of `_apply_planning` (`bot/main.py` lines 85–96)
for a present candidate item: proactive gating, confidence, daily cap and
parseability, each silently dropping the directive. -/
def apply_planning_item (S : Settings) (chatId chatType : String)
    (action : String) (it : LLMPlanItem) (pendingCount : Nat) (conv : ConvRow)
    (nowUtc : Int) (st : BotState) : BotState :=
  if ¬ should_schedule_proactive S chatType then st
  else if ¬ can_use_plan it S then st
  else if S.maxPerDay ≤ conv.dailyCount then st
  else
    match parse_send_at it with
    | none => st
    | some desired =>
      apply_planning_dispatch S chatId action it desired pendingCount conv nowUtc st

/-- Models `_apply_planning` from `bot/main.py`, with the two clock reads
(`utc_now`, `local_now`) frozen to the single instant `nowUtc` (local clock
`nowUtc + tzOffset`).  `conv` is the conversation with the daily counter
already refreshed by the caller (`wechat_event` lines 197–198). -/
def apply_planning (S : Settings) (chatId chatType : String) (action : String)
    (item : Option LLMPlanItem) (pendingCount : Nat) (conv : ConvRow)
    (nowUtc : Int) (st : BotState) : BotState :=
  if action = "cancel_all" then cancel_all_plans st chatId nowUtc
  else
    match item with
    | none =>
      if action = "replace_all" then cancel_all_plans st chatId nowUtc else st
    | some it =>
      apply_planning_item S chatId chatType action it pendingCount conv nowUtc st

/-- Models `_refresh_daily_counter` from `bot/scheduler.py`: reset the stored daily
counter when the local calendar date moved on; returns the state after the
possible write together with the count to use. -/
def refresh_daily_counter (st : BotState) (chatId : String) (currentDate : Int)
    (dailyDate : Option Int) (dailyCount : Nat) : BotState × Nat :=
  if dailyDate ≠ some currentDate then
    (update_daily_counter st chatId 0 currentDate, 0)
  else (st, dailyCount)

/-- Models `_next_after_cooldown` from `bot/scheduler.py`; the Python truthiness
test `if not last_bot_ts_utc` treats both `None` and `0` as absent. -/
def next_after_cooldown (lastBotTsUtc : Option Int) (cooldownHours : Int) : Option Int :=
  match lastBotTsUtc with
  | none => none
  | some t => if t = 0 then none else some (t + cooldownHours * 3600)

/-- The external collaborators of the execution loop, as deterministic
oracles keyed by plan id: whether `connector.send_text` succeeds, whether
`allow_gif`'s random draw passes, what `gif_lib.pick_gif` finds for a tag,
and whether `connector.send_gif` succeeds. -/
structure Oracles where
  sendOk : Nat → Bool
  gifAllow : Nat → Bool
  pickGif : String → Option String
  gifSendOk : Nat → Bool

/-- The gif side-branch of `_handle_plan` (`bot/scheduler.py` lines 92–96):
when the plan carries a (non-empty, Python-truthy) gif tag, the `allow_gif`
draw passes and an asset is found, dispatch the gif and record it; a `false`
flag models a raise from `connector.send_gif`. -/
def gif_step (O : Oracles) (nowUtc : Int) (plan : PlanRow) (st2 : BotState) :
    BotState × Bool :=
  match plan.gifTag with
  | some tag =>
    if tag ≠ "" ∧ O.gifAllow plan.id then
      match O.pickGif tag with
      | some path =>
        if ¬ O.gifSendOk plan.id then (st2, false)
        else
          (add_message
            { st2 with outbox := st2.outbox ++ [(plan.chatId, path)] }
            plan.chatId "bot" "bot" nowUtc path "gif", true)
      | none => (st2, true)
    else (st2, true)
  | none => (st2, true)

/-- The terminal writes of `_handle_plan` (`bot/scheduler.py` lines 98–100),
skipped when the gif branch raised: mark the plan sent, update the last
bot-send instant and bump the daily counter. -/
def finish_send (nowUtc : Int) (plan : PlanRow) (dailyCount : Nat)
    (currentDate : Int) (ag : BotState × Bool) : BotState × Bool :=
  if ag.2 then
    (update_daily_counter
      (update_last_bot_ts (mark_plan_sent ag.1 plan.id nowUtc) plan.chatId nowUtc)
      plan.chatId (dailyCount + 1) currentDate, true)
  else ag

/-- The dispatch tail of `_handle_plan` (`bot/scheduler.py` lines 89–100):
send the text, record it, optionally send a gif, then mark the plan sent and
update the conversation.  A `false` flag models a raise from `send_text` or
`send_gif`, keeping the mutations performed before it. -/
def handle_plan_send (O : Oracles) (nowUtc : Int) (plan : PlanRow)
    (st1 : BotState) (dailyCount : Nat) (currentDate : Int) : BotState × Bool :=
  if ¬ O.sendOk plan.id then (st1, false)
  else
    finish_send nowUtc plan dailyCount currentDate
      (gif_step O nowUtc plan
        (add_message
          { st1 with outbox := st1.outbox ++ [(plan.chatId, plan.text)] }
          plan.chatId "bot" "bot" nowUtc plan.text "text"))

/-- The body of `_handle_plan` (`bot/scheduler.py`) after the conversation
lookup succeeded: re-validate proactive gating, daily cap (after rollover),
quiet hours and cooldown, then dispatch.  The clock reads are frozen to
`nowUtc` (the local clock is `nowUtc + tzOffset`, whose calendar day is its
floor division by 86400). -/
def handle_plan_conv (S : Settings) (O : Oracles) (nowUtc : Int)
    (plan : PlanRow) (conv : ConvRow) (st : BotState) : BotState × Bool :=
  if ¬ should_schedule_proactive S conv.chatType then
    (mark_plan_canceled st plan.id nowUtc, true)
  else if S.maxPerDay ≤ (refresh_daily_counter st plan.chatId
      ((nowUtc + S.tzOffset) / 86400) conv.dailyDate conv.dailyCount).2 then
    (mark_plan_canceled (refresh_daily_counter st plan.chatId
      ((nowUtc + S.tzOffset) / 86400) conv.dailyDate conv.dailyCount).1
      plan.id nowUtc, true)
  else if is_within_quiet_hours (nowUtc + S.tzOffset) S.quietBlocks then
    (reschedule_plan (refresh_daily_counter st plan.chatId
      ((nowUtc + S.tzOffset) / 86400) conv.dailyDate conv.dailyCount).1
      plan.id (next_allowed_time (nowUtc + S.tzOffset) S.quietBlocks - S.tzOffset)
      nowUtc, true)
  else
    match next_after_cooldown conv.lastBotTsUtc S.cooldownHours with
    | some cu =>
      if nowUtc < cu then
        (reschedule_plan (refresh_daily_counter st plan.chatId
          ((nowUtc + S.tzOffset) / 86400) conv.dailyDate conv.dailyCount).1
          plan.id cu nowUtc, true)
      else
        handle_plan_send O nowUtc plan
          (refresh_daily_counter st plan.chatId ((nowUtc + S.tzOffset) / 86400)
            conv.dailyDate conv.dailyCount).1
          (refresh_daily_counter st plan.chatId ((nowUtc + S.tzOffset) / 86400)
            conv.dailyDate conv.dailyCount).2
          ((nowUtc + S.tzOffset) / 86400)
    | none =>
      handle_plan_send O nowUtc plan
        (refresh_daily_counter st plan.chatId ((nowUtc + S.tzOffset) / 86400)
          conv.dailyDate conv.dailyCount).1
        (refresh_daily_counter st plan.chatId ((nowUtc + S.tzOffset) / 86400)
          conv.dailyDate conv.dailyCount).2
        ((nowUtc + S.tzOffset) / 86400)

/-- Models `_handle_plan` from `bot/scheduler.py` with exceptions made explicit:
the result is the reached state paired with `false` exactly when the Python
body raises (conversation missing, `send_text` failure, or `send_gif`
failure); every mutation performed before the raise is kept. -/
def handle_plan_e (S : Settings) (O : Oracles) (nowUtc : Int) (plan : PlanRow)
    (st : BotState) : BotState × Bool :=
  match get_conversation st plan.chatId with
  | none => (st, false)
  | some conv => handle_plan_conv S O nowUtc plan conv st

/-- Folding the per-plan handler over a batch, discarding the per-plan
failure flag: the `try/except` around `_handle_plan` in `process_due_plans`
(`bot/scheduler.py`). -/
def run_plans (S : Settings) (O : Oracles) (nowUtc : Int) (batch : List PlanRow)
    (st : BotState) : BotState :=
  batch.foldl (fun s p => (handle_plan_e S O nowUtc p s).1) st

/-- Models `process_due_plans` from `bot/scheduler.py`: fetch the due plans (default
limit 50) and handle each one, catching per-plan failures. -/
def process_due_plans (S : Settings) (O : Oracles) (nowUtc : Int)
    (st : BotState) : BotState :=
  run_plans S O nowUtc (get_due_plans_default st nowUtc) st

/-- Proof measure for the advancement loop: how many blocks still end after a
given time-of-day.  Each jump of `next_allowed_time` over non-wrapping blocks
with whole-minute ends strictly decreases this count. -/
def blocksAbove (blocks : List QuietBlock) (tod : Nat) : Nat :=
  blocks.countP fun b => decide (tod < b.stop)

theorem todOf_lt (t : Int) : todOf t < 86400 := by
  unfold todOf
  omega

theorem todOf_cast (t : Int) : (todOf t : Int) = t % 86400 := by
  unfold todOf
  omega

theorem todOf_jump (t : Int) (e : Nat) (he : e < 86400) :
    todOf (t - (todOf t : Int) + (e : Int)) = e := by
  unfold todOf
  omega

/-- When a block end lies on a whole minute, the `replace(second=0)` of the
jump does not move it. -/
theorem truncMin_eq (e : Nat) (he : e % 60 = 0) : truncMin e = e := by
  unfold truncMin
  omega

/-- The inner loop finds no jump exactly when the candidate is outside every
quiet block: `find_jump` and `is_within_quiet_hours` test the same
containment conditions. -/
theorem find_jump_none_iff (t : Int) (blocks : List QuietBlock) :
    find_jump t blocks = none ↔ is_within_quiet_hours t blocks = false := by
  induction blocks with
  | nil => simp [find_jump, is_within_quiet_hours]
  | cons b bs ih =>
    have hrest : is_within_quiet_hours t (b :: bs) =
        ((if b.start ≤ b.stop then
            decide (b.start ≤ todOf t ∧ todOf t < b.stop)
          else
            decide (b.start ≤ todOf t ∨ todOf t < b.stop)) ||
          is_within_quiet_hours t bs) := by
      simp [is_within_quiet_hours]
    rw [hrest, find_jump]
    by_cases h1 : b.start ≤ b.stop
    · by_cases h2 : b.start ≤ todOf t ∧ todOf t < b.stop
      · simp [h1, h2]
      · simp [h1, h2, ih]
    · by_cases h2 : b.start ≤ todOf t
      · simp [h1, h2]
      · by_cases h3 : todOf t < b.stop
        · simp [h1, h2, h3]
        · simp [h1, h2, h3, ih]

/-- With whole-minute block ends, every jump of the advancement loop moves
the candidate strictly forward. -/
theorem find_jump_lt (blocks : List QuietBlock)
    (hz : ∀ b ∈ blocks, b.stop % 60 = 0) (t t2 : Int)
    (h : find_jump t blocks = some t2) : t < t2 := by
  induction blocks with
  | nil => simp [find_jump] at h
  | cons b bs ih =>
    have hb : b.stop % 60 = 0 := hz b (List.mem_cons_self b bs)
    rw [find_jump] at h
    by_cases h1 : b.start ≤ b.stop
    · rw [if_pos h1] at h
      by_cases h2 : b.start ≤ todOf t ∧ todOf t < b.stop
      · rw [if_pos h2] at h
        obtain ⟨-, hlt⟩ := h2
        have htr : truncMin b.stop = b.stop := truncMin_eq b.stop hb
        have := Option.some.inj h
        omega
      · rw [if_neg h2] at h
        exact ih (fun c hc => hz c (List.mem_cons_of_mem b hc)) h
    · rw [if_neg h1] at h
      by_cases h2 : b.start ≤ todOf t
      · rw [if_pos h2] at h
        have := Option.some.inj h
        have := todOf_lt t
        omega
      · rw [if_neg h2] at h
        by_cases h3 : todOf t < b.stop
        · rw [if_pos h3] at h
          have htr : truncMin b.stop = b.stop := truncMin_eq b.stop hb
          have := Option.some.inj h
          omega
        · rw [if_neg h3] at h
          exact ih (fun c hc => hz c (List.mem_cons_of_mem b hc)) h

/-- With whole-minute block ends, the bounded advancement loop never moves
the candidate backward. -/
theorem next_allowed_aux_le (blocks : List QuietBlock)
    (hz : ∀ b ∈ blocks, b.stop % 60 = 0) :
    ∀ (fuel : Nat) (t : Int), t ≤ next_allowed_aux fuel t blocks := by
  intro fuel
  induction fuel with
  | zero => intro t; simp [next_allowed_aux]
  | succ n ih =>
    intro t
    rw [next_allowed_aux]
    cases hj : find_jump t blocks with
    | none => exact le_refl t
    | some t2 => exact le_trans (le_of_lt (find_jump_lt blocks hz t t2 hj)) (ih t2)

/-- On non-wrapping blocks every jump goes to the (whole-minute-truncated)
end of some block that contains the candidate's time-of-day. -/
theorem find_jump_some_nonwrap (blocks : List QuietBlock)
    (hnw : ∀ b ∈ blocks, b.start ≤ b.stop) (t t2 : Int)
    (h : find_jump t blocks = some t2) :
    ∃ b ∈ blocks, b.start ≤ todOf t ∧ todOf t < b.stop ∧
      t2 = t - (todOf t : Int) + (truncMin b.stop : Int) := by
  induction blocks with
  | nil => simp [find_jump] at h
  | cons b bs ih =>
    have hb : b.start ≤ b.stop := hnw b (List.mem_cons_self b bs)
    rw [find_jump, if_pos hb] at h
    by_cases h2 : b.start ≤ todOf t ∧ todOf t < b.stop
    · rw [if_pos h2] at h
      exact ⟨b, List.mem_cons_self b bs, h2.1, h2.2, (Option.some.inj h).symm⟩
    · rw [if_neg h2] at h
      obtain ⟨c, hc, hcs⟩ := ih (fun c hc => hnw c (List.mem_cons_of_mem b hc)) h
      exact ⟨c, List.mem_cons_of_mem b hc, hcs⟩

/-- Strict `countP` decrease: if `p` implies `q` pointwise and some member
satisfies `q` but not `p`, then `p` counts strictly fewer members. -/
theorem countP_lt_of_mem {α : Type} (l : List α) (p q : α → Bool)
    (hpq : ∀ x ∈ l, p x = true → q x = true) (a : α) (ha : a ∈ l)
    (hqa : q a = true) (hpa : p a = false) : l.countP p < l.countP q := by
  induction l with
  | nil => simp at ha
  | cons x xs ih =>
    rw [List.countP_cons, List.countP_cons]
    rcases List.mem_cons.mp ha with rfl | hxs
    · have h1 : xs.countP p ≤ xs.countP q :=
        List.countP_mono_left fun y hy => hpq y (List.mem_cons_of_mem a hy)
      simp [hpa, hqa]
      omega
    · have h2 := ih (fun y hy => hpq y (List.mem_cons_of_mem x hy)) hxs
      have h3 : (if p x = true then 1 else 0) ≤ (if q x = true then 1 else 0) := by
        by_cases hpx : p x = true
        · simp [hpx, hpq x (List.mem_cons_self x xs) hpx]
        · simp [hpx]
      omega

/-- On at most-`fuel`-many non-wrapping whole-minute blocks, every jump
strictly decreases the number of blocks ending after the candidate's
time-of-day. -/
theorem blocksAbove_jump (blocks : List QuietBlock)
    (hnw : ∀ b ∈ blocks, b.start ≤ b.stop ∧ b.stop % 60 = 0 ∧ b.stop < 86400)
    (t t2 : Int) (h : find_jump t blocks = some t2) :
    blocksAbove blocks (todOf t2) < blocksAbove blocks (todOf t) := by
  obtain ⟨b, hbmem, h1, h2, rfl⟩ :=
    find_jump_some_nonwrap blocks (fun c hc => (hnw c hc).1) t _ h
  obtain ⟨-, hb60, hblt⟩ := hnw b hbmem
  rw [truncMin_eq b.stop hb60]
  rw [todOf_jump t b.stop hblt]
  unfold blocksAbove
  refine countP_lt_of_mem blocks _ _ ?_ b hbmem ?_ ?_
  · intro c _ hpc
    have : b.stop < c.stop := of_decide_eq_true hpc
    exact decide_eq_true (by omega)
  · exact decide_eq_true h2
  · exact decide_eq_false (by omega)

/-- If fewer blocks end after the candidate's time-of-day than the loop has
iterations left, the loop exits outside every quiet block (non-wrapping,
whole-minute blocks). -/
theorem next_allowed_aux_not_within (blocks : List QuietBlock)
    (hnw : ∀ b ∈ blocks, b.start ≤ b.stop ∧ b.stop % 60 = 0 ∧ b.stop < 86400) :
    ∀ (fuel : Nat) (t : Int), blocksAbove blocks (todOf t) < fuel →
      is_within_quiet_hours (next_allowed_aux fuel t blocks) blocks = false := by
  intro fuel
  induction fuel with
  | zero => intro t ht; omega
  | succ n ih =>
    intro t ht
    rw [next_allowed_aux]
    cases hj : find_jump t blocks with
    | none => exact (find_jump_none_iff t blocks).mp hj
    | some t2 =>
      refine ih t2 ?_
      have := blocksAbove_jump blocks hnw t t2 hj
      omega

/-- C10, as stated, is false: `next_allowed_time` can move the candidate
backward when a block's end time-of-day carries nonzero seconds.  With the
block `10:00:00–10:30:45` and candidate `10:30:10` (37810 s), the jump
truncates the end to `10:30:00` (37800 s), strictly before the input, and the
loop then stays there. -/
theorem C10_counterexample :
    next_allowed_time 37810 [⟨36000, 37845⟩] = 37800 ∧
    next_allowed_time 37810 [⟨36000, 37845⟩] < 37810 := by
  constructor
  · decide
  · decide

/-- C10 (amended): `next_allowed_time` never moves the candidate backward
provided every block's end time-of-day has zero seconds (the source's
`parse_hhmm` admits `HH:MM:SS` ends, for which the jump's truncation to the
whole minute can move backward). -/
theorem C10_next_allowed_time_monotone (blocks : List QuietBlock)
    (hz : ∀ b ∈ blocks, b.stop % 60 = 0) (t : Int) :
    t ≤ next_allowed_time t blocks := by
  unfold next_allowed_time
  exact next_allowed_aux_le blocks hz 5 t

/-- Witness for C10 (amended) at a concrete input: one whole-minute block. -/
theorem C10_witness : (100 : Int) ≤ next_allowed_time 100 [⟨0, 60⟩] :=
  C10_next_allowed_time_monotone [⟨0, 60⟩] (by decide) 100

/-- C2, as stated, is false: with the single quiet block `10:00:00–10:30:45`
(an end with nonzero seconds), `now` = 10:29:10 (37750 s) and candidate
10:30:10 (37810 s = now + 60), `sanitize_schedule_time` returns 10:30:00
(37800 s), which is both below `now + 60` and still inside the block. -/
theorem C2_counterexample :
    sanitize_schedule_time 37810 37750 [⟨36000, 37845⟩] = 37800 ∧
    sanitize_schedule_time 37810 37750 [⟨36000, 37845⟩] < 37750 + MIN_SCHEDULE_DELAY ∧
    is_within_quiet_hours (sanitize_schedule_time 37810 37750 [⟨36000, 37845⟩])
      [⟨36000, 37845⟩] = true := by
  refine ⟨by decide, by decide, by decide⟩

/-- C2 (amended): for at most four non-wrapping quiet blocks whose ends lie
on whole minutes (and are valid times of day), `sanitize_schedule_time` is at
least `now` plus the 60-second minimum delay, lands outside every quiet
block, and is idempotent.  The restrictions are forced by the source: an end
with seconds truncates backward (see the counterexample), and five or more
chained blocks (or wrapping ones) can exhaust the loop's 5-iteration bound
while still inside a block. -/
theorem C2_sanitize_schedule_time (blocks : List QuietBlock)
    (hnw : ∀ b ∈ blocks, b.start ≤ b.stop ∧ b.stop % 60 = 0 ∧ b.stop < 86400)
    (hlen : blocks.length ≤ 4) (sendAt localNow : Int) :
    localNow + MIN_SCHEDULE_DELAY ≤ sanitize_schedule_time sendAt localNow blocks ∧
    is_within_quiet_hours (sanitize_schedule_time sendAt localNow blocks) blocks = false ∧
    sanitize_schedule_time (sanitize_schedule_time sendAt localNow blocks) localNow blocks =
      sanitize_schedule_time sendAt localNow blocks := by
  have hz : ∀ b ∈ blocks, b.stop % 60 = 0 := fun b hb => ((hnw b hb).2).1
  have key : ∀ u : Int, localNow + MIN_SCHEDULE_DELAY ≤ u →
      localNow + MIN_SCHEDULE_DELAY ≤ (if is_within_quiet_hours u blocks then
        next_allowed_time u blocks else u) ∧
      is_within_quiet_hours (if is_within_quiet_hours u blocks then
        next_allowed_time u blocks else u) blocks = false := by
    intro u hu
    by_cases hw : is_within_quiet_hours u blocks
    · rw [if_pos hw]
      refine ⟨le_trans hu ?_, ?_⟩
      · unfold next_allowed_time
        exact next_allowed_aux_le blocks hz 5 u
      · unfold next_allowed_time
        refine next_allowed_aux_not_within blocks hnw 5 u ?_
        have h1 : blocksAbove blocks (todOf u) ≤ blocks.length :=
          List.countP_le_length _
        omega
    · rw [if_neg hw]
      exact ⟨hu, by simpa using hw⟩
  have hsge : localNow + MIN_SCHEDULE_DELAY ≤
      ensure_min_delay sendAt localNow MIN_SCHEDULE_DELAY := by
    unfold ensure_min_delay
    split <;> omega
  have hmain := key (ensure_min_delay sendAt localNow MIN_SCHEDULE_DELAY) hsge
  have hout : sanitize_schedule_time sendAt localNow blocks =
      (if is_within_quiet_hours (ensure_min_delay sendAt localNow MIN_SCHEDULE_DELAY)
        blocks then next_allowed_time (ensure_min_delay sendAt localNow
          MIN_SCHEDULE_DELAY) blocks
       else ensure_min_delay sendAt localNow MIN_SCHEDULE_DELAY) := rfl
  rw [← hout] at hmain
  refine ⟨hmain.1, hmain.2, ?_⟩
  have hfix : ensure_min_delay (sanitize_schedule_time sendAt localNow blocks)
      localNow MIN_SCHEDULE_DELAY = sanitize_schedule_time sendAt localNow blocks := by
    unfold ensure_min_delay
    rw [if_neg]
    have := hmain.1
    omega
  have houter : sanitize_schedule_time (sanitize_schedule_time sendAt localNow blocks)
      localNow blocks =
      (if is_within_quiet_hours (ensure_min_delay (sanitize_schedule_time sendAt
          localNow blocks) localNow MIN_SCHEDULE_DELAY) blocks then
        next_allowed_time (ensure_min_delay (sanitize_schedule_time sendAt localNow
          blocks) localNow MIN_SCHEDULE_DELAY) blocks
      else ensure_min_delay (sanitize_schedule_time sendAt localNow blocks) localNow
        MIN_SCHEDULE_DELAY) := rfl
  rw [houter, hfix, hmain.2]
  simp

/-- Witness for C2 (amended): block `10:00–10:30`, now 10:08:20, candidate
10:16:40. -/
theorem C2_witness :
    (36500 : Int) + MIN_SCHEDULE_DELAY ≤ sanitize_schedule_time 37000 36500 [⟨36000, 37800⟩] ∧
    is_within_quiet_hours (sanitize_schedule_time 37000 36500 [⟨36000, 37800⟩])
      [⟨36000, 37800⟩] = false ∧
    sanitize_schedule_time (sanitize_schedule_time 37000 36500 [⟨36000, 37800⟩])
      36500 [⟨36000, 37800⟩] = sanitize_schedule_time 37000 36500 [⟨36000, 37800⟩] :=
  C2_sanitize_schedule_time [⟨36000, 37800⟩] (by decide) (by decide) 37000 36500

/-- Looking up the updated id after an `UPDATE ... WHERE id = ?` row
transform applies the transform to the found row. -/
theorem find?_map_upd (l : List PlanRow) (pid : Nat) (g : PlanRow → PlanRow)
    (hg : ∀ p, (g p).id = p.id) :
    (l.map (upd_plan pid g)).find? (fun p => p.id == pid) =
      (l.find? fun p => p.id == pid).map g := by
  induction l with
  | nil => rfl
  | cons x xs ih =>
    rw [List.map_cons]
    by_cases hx : x.id = pid
    · have h2 : upd_plan pid g x = g x := by simp [upd_plan, hx]
      rw [h2, List.find?_cons_of_pos _ (by simp [hg, hx]),
        List.find?_cons_of_pos _ (by simp [hx])]
      rfl
    · have h2 : upd_plan pid g x = x := by simp [upd_plan, hx]
      rw [h2, List.find?_cons_of_neg _ (by simp [hx]),
        List.find?_cons_of_neg _ (by simp [hx]), ih]

/-- Looking up a different id after an `UPDATE ... WHERE id = ?` row
transform sees the original row. -/
theorem find?_map_upd_ne (l : List PlanRow) (pid qid : Nat) (hne : pid ≠ qid)
    (g : PlanRow → PlanRow) (hg : ∀ p, (g p).id = p.id) :
    (l.map (upd_plan qid g)).find? (fun p => p.id == pid) =
      l.find? (fun p => p.id == pid) := by
  induction l with
  | nil => rfl
  | cons x xs ih =>
    rw [List.map_cons]
    have hid : (upd_plan qid g x).id = x.id := by
      unfold upd_plan
      split
      · exact hg x
      · rfl
    by_cases hx : x.id = pid
    · have hxq : x.id ≠ qid := by omega
      have h2 : upd_plan qid g x = x := by simp [upd_plan, hxq]
      rw [h2, List.find?_cons_of_pos _ (by simp [hx]),
        List.find?_cons_of_pos _ (by simp [hx])]
    · rw [List.find?_cons_of_neg _ (by simp [hid, hx]),
        List.find?_cons_of_neg _ (by simp [hx]), ih]

theorem statusOf_mark_sent (st : BotState) (pid : Nat) (now : Int) :
    statusOf (mark_plan_sent st pid now).plans pid =
      (statusOf st.plans pid).map fun _ => STATUS_SENT := by
  unfold mark_plan_sent statusOf
  rw [find?_map_upd st.plans pid
    (fun p => { p with status := STATUS_SENT, updatedAtUtc := now }) (fun p => rfl)]
  cases st.plans.find? fun p => p.id == pid <;> rfl

theorem statusOf_mark_canceled (st : BotState) (pid : Nat) (now : Int) :
    statusOf (mark_plan_canceled st pid now).plans pid =
      (statusOf st.plans pid).map fun _ => STATUS_CANCELED := by
  unfold mark_plan_canceled statusOf
  rw [find?_map_upd st.plans pid
    (fun p => { p with status := STATUS_CANCELED, updatedAtUtc := now }) (fun p => rfl)]
  cases st.plans.find? fun p => p.id == pid <;> rfl

theorem statusOf_reschedule (st : BotState) (pid : Nat) (t now : Int) :
    statusOf (reschedule_plan st pid t now).plans pid = statusOf st.plans pid := by
  unfold reschedule_plan statusOf
  rw [find?_map_upd st.plans pid
    (fun p => { p with sendAtUtc := t, updatedAtUtc := now }) (fun p => rfl)]
  cases st.plans.find? fun p => p.id == pid <;> rfl

theorem sendAtOf_reschedule (st : BotState) (pid : Nat) (t now : Int) :
    sendAtOf (reschedule_plan st pid t now).plans pid =
      (st.plans.find? fun p => p.id == pid).map fun _ => t := by
  unfold reschedule_plan sendAtOf
  rw [find?_map_upd st.plans pid
    (fun p => { p with sendAtUtc := t, updatedAtUtc := now }) (fun p => rfl)]
  cases st.plans.find? fun p => p.id == pid <;> rfl

theorem statusOf_mark_sent_ne (st : BotState) (pid qid : Nat) (now : Int)
    (hne : pid ≠ qid) :
    statusOf (mark_plan_sent st qid now).plans pid = statusOf st.plans pid := by
  unfold mark_plan_sent statusOf
  rw [find?_map_upd_ne st.plans pid qid hne
    (fun p => { p with status := STATUS_SENT, updatedAtUtc := now }) (fun p => rfl)]

theorem statusOf_mark_canceled_ne (st : BotState) (pid qid : Nat) (now : Int)
    (hne : pid ≠ qid) :
    statusOf (mark_plan_canceled st qid now).plans pid = statusOf st.plans pid := by
  unfold mark_plan_canceled statusOf
  rw [find?_map_upd_ne st.plans pid qid hne
    (fun p => { p with status := STATUS_CANCELED, updatedAtUtc := now }) (fun p => rfl)]

theorem statusOf_reschedule_ne (st : BotState) (pid qid : Nat) (t now : Int)
    (hne : pid ≠ qid) :
    statusOf (reschedule_plan st qid t now).plans pid = statusOf st.plans pid := by
  unfold reschedule_plan statusOf
  rw [find?_map_upd_ne st.plans pid qid hne
    (fun p => { p with sendAtUtc := t, updatedAtUtc := now }) (fun p => rfl)]

/-- C1, as stated, is false: the single-plan mutations carry no status guard
(`UPDATE ... WHERE id = ?`).  On a plan already `canceled`, `markPlanSent`
overwrites the status to `sent`, and `reschedulePlan` still changes the send
time (10 → 99). -/
theorem C1_counterexample :
    statusOf (mark_plan_sent
      { plans := [{ id := 1, chatId := "c", sendAtUtc := 10, text := "m",
                    gifTag := none, status := STATUS_CANCELED, reason := "",
                    confidence := 1, createdAtUtc := 0, updatedAtUtc := 0 }],
        convs := [], messages := [], nextPlanId := 2, outbox := [] } 1 5).plans 1 =
      some STATUS_SENT ∧
    STATUS_SENT ≠ STATUS_CANCELED ∧
    sendAtOf (reschedule_plan
      { plans := [{ id := 1, chatId := "c", sendAtUtc := 10, text := "m",
                    gifTag := none, status := STATUS_CANCELED, reason := "",
                    confidence := 1, createdAtUtc := 0, updatedAtUtc := 0 }],
        convs := [], messages := [], nextPlanId := 2, outbox := [] } 1 99 5).plans 1 =
      some 99 := by
  refine ⟨by decide, by decide, by decide⟩

/-- C1 (amended): `markPlanSent`, `markPlanCanceled` and `reschedulePlan`
never raise, and re-applying the same terminal transition is idempotent on
the status (`markPlanSent` on a `sent` plan and `markPlanCanceled` on a
`canceled` plan leave the status unchanged); `reschedulePlan` never changes
a status; but the mutations are unguarded, so `reschedulePlan` does update
the send time even of a terminal plan (and the cross mutations overwrite the
terminal status, per the counterexample). -/
theorem C1_terminal_mutations (st : BotState) (p1 p2 : Nat) (now t : Int)
    (h1 : statusOf st.plans p1 = some STATUS_SENT)
    (h2 : statusOf st.plans p2 = some STATUS_CANCELED) :
    statusOf (mark_plan_sent st p1 now).plans p1 = some STATUS_SENT ∧
    statusOf (mark_plan_canceled st p2 now).plans p2 = some STATUS_CANCELED ∧
    statusOf (reschedule_plan st p1 t now).plans p1 = some STATUS_SENT ∧
    statusOf (reschedule_plan st p2 t now).plans p2 = some STATUS_CANCELED ∧
    sendAtOf (reschedule_plan st p1 t now).plans p1 = some t := by
  refine ⟨?_, ?_, ?_, ?_, ?_⟩
  · rw [statusOf_mark_sent, h1]; rfl
  · rw [statusOf_mark_canceled, h2]; rfl
  · rw [statusOf_reschedule, h1]
  · rw [statusOf_reschedule, h2]
  · rw [sendAtOf_reschedule]
    cases hf : st.plans.find? fun p => p.id == p1 with
    | none => rw [statusOf, hf] at h1; simp at h1
    | some r => rfl

/-- Witness for C1 (amended): a store holding one `sent` and one `canceled`
plan. -/
theorem C1_witness :
    statusOf (mark_plan_sent
      { plans := [{ id := 1, chatId := "c", sendAtUtc := 10, text := "m",
                    gifTag := none, status := STATUS_SENT, reason := "",
                    confidence := 1, createdAtUtc := 0, updatedAtUtc := 0 },
                  { id := 2, chatId := "c", sendAtUtc := 20, text := "m2",
                    gifTag := none, status := STATUS_CANCELED, reason := "",
                    confidence := 1, createdAtUtc := 0, updatedAtUtc := 0 }],
        convs := [], messages := [], nextPlanId := 3, outbox := [] } 1 7).plans 1 =
      some STATUS_SENT := by
  exact (C1_terminal_mutations
    { plans := [{ id := 1, chatId := "c", sendAtUtc := 10, text := "m",
                  gifTag := none, status := STATUS_SENT, reason := "",
                  confidence := 1, createdAtUtc := 0, updatedAtUtc := 0 },
                { id := 2, chatId := "c", sendAtUtc := 20, text := "m2",
                  gifTag := none, status := STATUS_CANCELED, reason := "",
                  confidence := 1, createdAtUtc := 0, updatedAtUtc := 0 }],
      convs := [], messages := [], nextPlanId := 3, outbox := [] }
    1 2 7 42 (by decide) (by decide)).1

theorem count_pending_cancel_all (st : BotState) (chatId : String) (now : Int) :
    count_pending_plans (cancel_all_plans st chatId now) chatId = 0 := by
  unfold count_pending_plans cancel_all_plans
  rw [List.countP_map, List.countP_eq_zero]
  intro p hp
  by_cases h : p.chatId = chatId ∧ p.status = STATUS_PENDING
  · simp only [Function.comp_apply, if_pos h]
    simp [STATUS_CANCELED, STATUS_PENDING]
  · simp only [Function.comp_apply, if_neg h]
    simp [h]

theorem count_pending_insert (st : BotState) (chatId : String) (tup : PlanTuple)
    (now : Int) :
    count_pending_plans (insert_plan st chatId tup now) chatId =
      count_pending_plans st chatId + 1 := by
  unfold count_pending_plans insert_plan
  rw [List.countP_append]
  simp

theorem count_pending_replace_single (st : BotState) (chatId : String)
    (tup : PlanTuple) (now : Int) :
    count_pending_plans (replace_plans st chatId [tup] now) chatId = 1 := by
  unfold replace_plans
  rw [List.foldl_cons, List.foldl_nil, count_pending_insert,
    count_pending_cancel_all]

/-- C3: `replacePlans` with a single item leaves exactly one pending plan for
the chat regardless of the prior state, so applying the `replace_all`
mutation twice in a row leaves exactly one pending plan — never zero, never
two. -/
theorem C3_replace_all_twice (st : BotState) (chatId : String)
    (tup1 tup2 : PlanTuple) (now1 now2 : Int) :
    count_pending_plans
      (replace_plans (replace_plans st chatId [tup1] now1) chatId [tup2] now2)
      chatId = 1 :=
  count_pending_replace_single _ chatId tup2 now2

/-- C5: `getDuePlans` returns only `pending` plans whose send time has
passed, in ascending send-time order, at most `limit` of them; whenever the
due plans fit in the limit it returns all of them; and the scheduler's
call without a limit uses the default 50. -/
theorem C5_get_due_plans (st : BotState) (nowUtc : Int) (limit : Nat) :
    (∀ p ∈ get_due_plans st nowUtc limit,
        p.status = STATUS_PENDING ∧ p.sendAtUtc ≤ nowUtc) ∧
    List.Pairwise plan_le (get_due_plans st nowUtc limit) ∧
    (get_due_plans st nowUtc limit).length ≤ limit ∧
    ((st.plans.countP fun p =>
        decide (p.status = STATUS_PENDING ∧ p.sendAtUtc ≤ nowUtc)) ≤ limit →
      ∀ p ∈ st.plans, p.status = STATUS_PENDING → p.sendAtUtc ≤ nowUtc →
        p ∈ get_due_plans st nowUtc limit) ∧
    get_due_plans_default st nowUtc = get_due_plans st nowUtc 50 := by
  refine ⟨?_, ?_, ?_, ?_, rfl⟩
  · intro p hp
    have h1 := List.mem_of_mem_take hp
    have h2 := (List.mem_insertionSort plan_le).mp h1
    have h3 := (List.mem_filter.mp h2).2
    exact of_decide_eq_true h3
  · exact List.Pairwise.sublist (List.take_sublist _ _)
      (List.sorted_insertionSort plan_le _)
  · unfold get_due_plans
    rw [List.length_take]
    omega
  · intro hcnt p hp hst hsd
    unfold get_due_plans
    have hflt : p ∈ st.plans.filter fun p =>
        decide (p.status = STATUS_PENDING ∧ p.sendAtUtc ≤ nowUtc) :=
      List.mem_filter.mpr ⟨hp, decide_eq_true ⟨hst, hsd⟩⟩
    rw [List.take_of_length_le]
    · exact (List.mem_insertionSort plan_le).mpr hflt
    · rw [List.length_insertionSort, ← List.countP_eq_length_filter]
      exact hcnt

/-- C4: when the chat already has at least `max_pending_per_chat` pending
plans, an `append` directive is a no-op — plan application returns the store
unchanged (the caller passes the chat's pending count, fetched before the
turn's reply is generated). -/
theorem C4_append_cap (S : Settings) (chatId chatType : String)
    (item : Option LLMPlanItem) (conv : ConvRow) (nowUtc : Int) (st : BotState)
    (hcap : S.maxPendingPerChat ≤ count_pending_plans st chatId) :
    apply_planning S chatId chatType "append" item
      (count_pending_plans st chatId) conv nowUtc st = st := by
  cases item with
  | none =>
    unfold apply_planning
    rw [if_neg (by decide : ¬ (("append" : String) = "cancel_all")),
      if_neg (by decide : ¬ (("append" : String) = "replace_all"))]
  | some it =>
    unfold apply_planning
    rw [if_neg (by decide : ¬ (("append" : String) = "cancel_all"))]
    show apply_planning_item S chatId chatType "append" it
      (count_pending_plans st chatId) conv nowUtc st = st
    unfold apply_planning_item
    by_cases hpro : should_schedule_proactive S chatType = true
    · rw [if_neg (by simp [hpro])]
      by_cases hconf : can_use_plan it S = true
      · rw [if_neg (by simp [hconf])]
        by_cases hday : S.maxPerDay ≤ conv.dailyCount
        · rw [if_pos hday]
        · rw [if_neg hday]
          cases hparse : parse_send_at it with
          | none => rfl
          | some desired =>
            show apply_planning_dispatch S chatId "append" it desired
              (count_pending_plans st chatId) conv nowUtc st = st
            unfold apply_planning_dispatch
            rw [if_neg (by decide : ¬ (("append" : String) = "replace_all")),
              if_pos rfl, if_pos hcap]
      · rw [if_pos (by simp [hconf])]
    · rw [if_pos (by simp [hpro])]

/-- Witness for C4: one pending plan, cap `max_pending_per_chat = 1`. -/
theorem C4_witness :
    apply_planning ⟨true, 1, 6, 6/10, 1, false, [], 0⟩ "c" "direct" "append"
      (some ⟨some 1000, "hi", none, "", 1⟩)
      (count_pending_plans
        { plans := [{ id := 1, chatId := "c", sendAtUtc := 0, text := "m",
                      gifTag := none, status := STATUS_PENDING, reason := "",
                      confidence := 1, createdAtUtc := 0, updatedAtUtc := 0 }],
          convs := [], messages := [], nextPlanId := 2, outbox := [] } "c")
      ⟨"c", "direct", "", none, none, 0, none⟩ 0
      { plans := [{ id := 1, chatId := "c", sendAtUtc := 0, text := "m",
                    gifTag := none, status := STATUS_PENDING, reason := "",
                    confidence := 1, createdAtUtc := 0, updatedAtUtc := 0 }],
        convs := [], messages := [], nextPlanId := 2, outbox := [] } =
    { plans := [{ id := 1, chatId := "c", sendAtUtc := 0, text := "m",
                  gifTag := none, status := STATUS_PENDING, reason := "",
                  confidence := 1, createdAtUtc := 0, updatedAtUtc := 0 }],
      convs := [], messages := [], nextPlanId := 2, outbox := [] } :=
  C4_append_cap ⟨true, 1, 6, 6/10, 1, false, [], 0⟩ "c" "direct"
    (some ⟨some 1000, "hi", none, "", 1⟩)
    ⟨"c", "direct", "", none, none, 0, none⟩ 0
    { plans := [{ id := 1, chatId := "c", sendAtUtc := 0, text := "m",
                  gifTag := none, status := STATUS_PENDING, reason := "",
                  confidence := 1, createdAtUtc := 0, updatedAtUtc := 0 }],
      convs := [], messages := [], nextPlanId := 2, outbox := [] }
    (by decide)

/-- C7: plan application of `replace_all` with no candidate item has exactly
the effect of `cancel_all` (all pending plans of the chat canceled, nothing
inserted), and any other action with no candidate item leaves the store
unchanged. -/
theorem C7_replace_all_no_item (S : Settings) (chatId chatType : String)
    (pendingCount : Nat) (conv : ConvRow) (nowUtc : Int) (st : BotState)
    (item : Option LLMPlanItem) (action : String)
    (h1 : action ≠ "cancel_all") (h2 : action ≠ "replace_all") :
    apply_planning S chatId chatType "replace_all" none pendingCount conv nowUtc st =
      apply_planning S chatId chatType "cancel_all" item pendingCount conv nowUtc st ∧
    apply_planning S chatId chatType "replace_all" none pendingCount conv nowUtc st =
      cancel_all_plans st chatId nowUtc ∧
    apply_planning S chatId chatType action none pendingCount conv nowUtc st = st := by
  refine ⟨?_, ?_, ?_⟩
  · rfl
  · rfl
  · unfold apply_planning
    rw [if_neg h1, if_neg h2]

/-- Witness for C7: the third clause at the concrete action `append`. -/
theorem C7_witness :
    apply_planning ⟨true, 1, 6, 6/10, 2, false, [], 0⟩ "c" "direct" "replace_all"
      none 0 ⟨"c", "direct", "", none, none, 0, none⟩ 3
      { plans := [], convs := [], messages := [], nextPlanId := 1, outbox := [] } =
      cancel_all_plans
        { plans := [], convs := [], messages := [], nextPlanId := 1, outbox := [] }
        "c" 3 ∧
    apply_planning ⟨true, 1, 6, 6/10, 2, false, [], 0⟩ "c" "direct" "append"
      none 0 ⟨"c", "direct", "", none, none, 0, none⟩ 3
      { plans := [], convs := [], messages := [], nextPlanId := 1, outbox := [] } =
      { plans := [], convs := [], messages := [], nextPlanId := 1, outbox := [] } :=
  ⟨(C7_replace_all_no_item ⟨true, 1, 6, 6/10, 2, false, [], 0⟩ "c" "direct" 0
      ⟨"c", "direct", "", none, none, 0, none⟩ 3
      { plans := [], convs := [], messages := [], nextPlanId := 1, outbox := [] }
      none "append" (by decide) (by decide)).2.1,
   (C7_replace_all_no_item ⟨true, 1, 6, 6/10, 2, false, [], 0⟩ "c" "direct" 0
      ⟨"c", "direct", "", none, none, 0, none⟩ 3
      { plans := [], convs := [], messages := [], nextPlanId := 1, outbox := [] }
      none "append" (by decide) (by decide)).2.2⟩

/-- C6: with a recorded last-bot-send instant `T` and a desired local send
time earlier than `T + cooldown_hours` (in local time), plan application
clamps the desired time to the cooldown boundary before sanitization: the
plan written by `replace_all` carries exactly the sanitized boundary
(converted back to UTC). -/
theorem C6_cooldown_clamp (S : Settings) (chatId chatType : String)
    (it : LLMPlanItem) (pendingCount : Nat) (conv : ConvRow) (nowUtc : Int)
    (st : BotState) (T desired : Int)
    (hlast : conv.lastBotTsUtc = some T) (hT : T ≠ 0)
    (hpro : should_schedule_proactive S chatType = true)
    (hconf : can_use_plan it S = true)
    (hday : conv.dailyCount < S.maxPerDay)
    (hparse : parse_send_at it = some desired)
    (hlt : desired < T + S.cooldownHours * 3600 + S.tzOffset) :
    apply_planning S chatId chatType "replace_all" (some it) pendingCount conv
      nowUtc st =
    replace_plans st chatId
      [(sanitize_schedule_time (T + S.cooldownHours * 3600 + S.tzOffset)
          (nowUtc + S.tzOffset) S.quietBlocks - S.tzOffset,
        plan_text it, it.gifTag, it.reason, it.confidence)] nowUtc := by
  have hclamp : clamp_cooldown S conv.lastBotTsUtc desired =
      T + S.cooldownHours * 3600 + S.tzOffset := by
    rw [hlast]
    simp [clamp_cooldown, hT, hlt]
  unfold apply_planning
  rw [if_neg (by decide : ¬ (("replace_all" : String) = "cancel_all"))]
  show apply_planning_item S chatId chatType "replace_all" it pendingCount conv
    nowUtc st = _
  unfold apply_planning_item
  rw [if_neg (by simp [hpro]), if_neg (by simp [hconf]), if_neg (by omega),
    hparse]
  show apply_planning_dispatch S chatId "replace_all" it desired pendingCount
    conv nowUtc st = _
  unfold apply_planning_dispatch
  rw [hclamp, if_pos rfl]

theorem refresh_plans (st : BotState) (chatId : String) (d : Int)
    (dd : Option Int) (dc : Nat) :
    (refresh_daily_counter st chatId d dd dc).1.plans = st.plans := by
  unfold refresh_daily_counter
  split <;> rfl

theorem refresh_outbox (st : BotState) (chatId : String) (d : Int)
    (dd : Option Int) (dc : Nat) :
    (refresh_daily_counter st chatId d dd dc).1.outbox = st.outbox := by
  unfold refresh_daily_counter
  split <;> rfl

theorem statusOf_mark_canceled_of_some (st : BotState) (pid : Nat) (now : Int)
    (s : String) (h : statusOf st.plans pid = some s) :
    statusOf (mark_plan_canceled st pid now).plans pid = some STATUS_CANCELED := by
  rw [statusOf_mark_canceled, h]
  rfl

/-- C9: a due plan whose conversation's daily counter (after date rollover)
has reached `max_per_day` is marked canceled by the execution loop's per-plan
handler, and nothing is dispatched through the connector (the outbox is
unchanged). -/
theorem C9_daily_cap_cancels (S : Settings) (O : Oracles) (nowUtc : Int)
    (plan : PlanRow) (st : BotState) (conv : ConvRow)
    (hconv : get_conversation st plan.chatId = some conv)
    (hpro : should_schedule_proactive S conv.chatType = true)
    (hdaily : S.maxPerDay ≤ (refresh_daily_counter st plan.chatId
        ((nowUtc + S.tzOffset) / 86400) conv.dailyDate conv.dailyCount).2)
    (hrow : statusOf st.plans plan.id = some STATUS_PENDING) :
    statusOf (handle_plan_e S O nowUtc plan st).1.plans plan.id =
      some STATUS_CANCELED ∧
    (handle_plan_e S O nowUtc plan st).1.outbox = st.outbox := by
  unfold handle_plan_e
  rw [hconv]
  show (statusOf (handle_plan_conv S O nowUtc plan conv st).1.plans plan.id =
      some STATUS_CANCELED) ∧
    (handle_plan_conv S O nowUtc plan conv st).1.outbox = st.outbox
  unfold handle_plan_conv
  rw [if_neg (by simp [hpro]), if_pos hdaily]
  constructor
  · refine statusOf_mark_canceled_of_some _ _ _ STATUS_PENDING ?_
    rw [refresh_plans]
    exact hrow
  · show (mark_plan_canceled _ _ _).outbox = st.outbox
    rw [show ∀ s : BotState, ∀ pid now, (mark_plan_canceled s pid now).outbox =
      s.outbox from fun s pid now => rfl, refresh_outbox]

/-- Witness for C9: `max_per_day = 1` and one proactive message already sent
today (daily counter 1 for the current local date), so the second due plan is
canceled without dispatch. -/
theorem C9_witness :
    statusOf (handle_plan_e ⟨true, 1, 6, 6/10, 2, false, [], 0⟩
      ⟨fun _ => true, fun _ => false, fun _ => none, fun _ => true⟩ 100
      { id := 2, chatId := "c", sendAtUtc := 50, text := "m2", gifTag := none,
        status := STATUS_PENDING, reason := "", confidence := 1,
        createdAtUtc := 0, updatedAtUtc := 0 }
      { plans := [{ id := 2, chatId := "c", sendAtUtc := 50, text := "m2",
                    gifTag := none, status := STATUS_PENDING, reason := "",
                    confidence := 1, createdAtUtc := 0, updatedAtUtc := 0 }],
        convs := [⟨"c", "direct", "", none, none, 1, some 0⟩],
        messages := [], nextPlanId := 3, outbox := [] }).1.plans 2 =
      some STATUS_CANCELED ∧
    (handle_plan_e ⟨true, 1, 6, 6/10, 2, false, [], 0⟩
      ⟨fun _ => true, fun _ => false, fun _ => none, fun _ => true⟩ 100
      { id := 2, chatId := "c", sendAtUtc := 50, text := "m2", gifTag := none,
        status := STATUS_PENDING, reason := "", confidence := 1,
        createdAtUtc := 0, updatedAtUtc := 0 }
      { plans := [{ id := 2, chatId := "c", sendAtUtc := 50, text := "m2",
                    gifTag := none, status := STATUS_PENDING, reason := "",
                    confidence := 1, createdAtUtc := 0, updatedAtUtc := 0 }],
        convs := [⟨"c", "direct", "", none, none, 1, some 0⟩],
        messages := [], nextPlanId := 3, outbox := [] }).1.outbox = [] :=
  C9_daily_cap_cancels ⟨true, 1, 6, 6/10, 2, false, [], 0⟩
    ⟨fun _ => true, fun _ => false, fun _ => none, fun _ => true⟩ 100
    { id := 2, chatId := "c", sendAtUtc := 50, text := "m2", gifTag := none,
      status := STATUS_PENDING, reason := "", confidence := 1,
      createdAtUtc := 0, updatedAtUtc := 0 }
    { plans := [{ id := 2, chatId := "c", sendAtUtc := 50, text := "m2",
                  gifTag := none, status := STATUS_PENDING, reason := "",
                  confidence := 1, createdAtUtc := 0, updatedAtUtc := 0 }],
      convs := [⟨"c", "direct", "", none, none, 1, some 0⟩],
      messages := [], nextPlanId := 3, outbox := [] }
    ⟨"c", "direct", "", none, none, 1, some 0⟩
    (by decide) (by decide) (by decide) (by decide)

/-- Witness for C6, the spec's scenario: cooldown 6h, last bot send at
`T = 1000`, desired time `T + 1h = 4600`; the plan is scheduled at the
sanitized boundary `T + 6h` (no quiet blocks, minimum delay met). -/
theorem C6_witness :
    apply_planning ⟨true, 1, 6, 0, 2, false, [], 0⟩ "c" "direct"
      "replace_all" (some ⟨some 4600, "hi", none, "", 1⟩) 0
      ⟨"c", "direct", "", none, some 1000, 0, none⟩ 500
      { plans := [], convs := [], messages := [], nextPlanId := 1, outbox := [] } =
    replace_plans
      { plans := [], convs := [], messages := [], nextPlanId := 1, outbox := [] }
      "c"
      [(sanitize_schedule_time (1000 + (6 : Int) * 3600 + 0) (500 + 0) [] - 0,
        plan_text ⟨some 4600, "hi", none, "", 1⟩, none, "", 1)] 500 :=
  C6_cooldown_clamp ⟨true, 1, 6, 0, 2, false, [], 0⟩ "c" "direct"
    ⟨some 4600, "hi", none, "", 1⟩ 0
    ⟨"c", "direct", "", none, some 1000, 0, none⟩ 500
    { plans := [], convs := [], messages := [], nextPlanId := 1, outbox := [] }
    1000 4600 rfl (by decide) (by decide) (by decide) (by decide) rfl (by decide)

theorem gif_step_plans (O : Oracles) (nowUtc : Int) (q : PlanRow)
    (s2 : BotState) : (gif_step O nowUtc q s2).1.plans = s2.plans := by
  unfold gif_step
  split
  · split
    · split
      · split
        · rfl
        · rfl
      · rfl
    · rfl
  · rfl

theorem finish_send_statusOf_ne (nowUtc : Int) (q : PlanRow) (dc : Nat)
    (cd : Int) (ag : BotState × Bool) (pid : Nat) (hne : pid ≠ q.id) :
    statusOf (finish_send nowUtc q dc cd ag).1.plans pid =
      statusOf ag.1.plans pid := by
  unfold finish_send
  by_cases ha : ag.2 = true
  · rw [if_pos ha]
    exact statusOf_mark_sent_ne ag.1 pid q.id nowUtc hne
  · rw [if_neg ha]

theorem handle_plan_send_statusOf_ne (O : Oracles) (nowUtc : Int) (q : PlanRow)
    (s1 : BotState) (dc : Nat) (cd : Int) (pid : Nat) (hne : pid ≠ q.id) :
    statusOf (handle_plan_send O nowUtc q s1 dc cd).1.plans pid =
      statusOf s1.plans pid := by
  unfold handle_plan_send
  by_cases hs : O.sendOk q.id = true
  · rw [if_neg (by simp [hs]), finish_send_statusOf_ne _ _ _ _ _ _ hne,
      gif_step_plans]
    rfl
  · rw [if_pos (by simp [hs])]

theorem handle_plan_conv_statusOf_ne (S : Settings) (O : Oracles)
    (nowUtc : Int) (q : PlanRow) (conv : ConvRow) (s : BotState) (pid : Nat)
    (hne : pid ≠ q.id) :
    statusOf (handle_plan_conv S O nowUtc q conv s).1.plans pid =
      statusOf s.plans pid := by
  unfold handle_plan_conv
  split
  · exact statusOf_mark_canceled_ne s pid q.id nowUtc hne
  · split
    · exact (statusOf_mark_canceled_ne _ pid q.id nowUtc hne).trans
        (by rw [refresh_plans])
    · split
      · exact (statusOf_reschedule_ne _ pid q.id _ nowUtc hne).trans
          (by rw [refresh_plans])
      · split
        · split
          · exact (statusOf_reschedule_ne _ pid q.id _ nowUtc hne).trans
              (by rw [refresh_plans])
          · exact (handle_plan_send_statusOf_ne _ _ _ _ _ _ _ hne).trans
              (by rw [refresh_plans])
        · exact (handle_plan_send_statusOf_ne _ _ _ _ _ _ _ hne).trans
            (by rw [refresh_plans])

theorem handle_plan_e_statusOf_ne (S : Settings) (O : Oracles) (nowUtc : Int)
    (q : PlanRow) (s : BotState) (pid : Nat) (hne : pid ≠ q.id) :
    statusOf (handle_plan_e S O nowUtc q s).1.plans pid =
      statusOf s.plans pid := by
  unfold handle_plan_e
  cases hc : get_conversation s q.chatId with
  | none => rfl
  | some conv => exact handle_plan_conv_statusOf_ne S O nowUtc q conv s pid hne

theorem run_plans_statusOf_ne (S : Settings) (O : Oracles) (nowUtc : Int)
    (batch : List PlanRow) (s : BotState) (pid : Nat)
    (h : ∀ q ∈ batch, pid ≠ q.id) :
    statusOf (run_plans S O nowUtc batch s).plans pid = statusOf s.plans pid := by
  induction batch generalizing s with
  | nil => rfl
  | cons q qs ih =>
    show statusOf (run_plans S O nowUtc qs (handle_plan_e S O nowUtc q s).1).plans
      pid = statusOf s.plans pid
    rw [ih _ fun r hr => h r (List.mem_cons_of_mem q hr)]
    exact handle_plan_e_statusOf_ne S O nowUtc q s pid (h q (List.mem_cons_self q qs))

theorem find?_eq_of_nodup (l : List PlanRow)
    (h : (l.map fun p => p.id).Nodup) (a : PlanRow) (ha : a ∈ l) :
    l.find? (fun p => p.id == a.id) = some a := by
  induction l with
  | nil => simp at ha
  | cons x xs ih =>
    rw [List.map_cons, List.nodup_cons] at h
    rcases List.mem_cons.mp ha with rfl | hxs
    · exact List.find?_cons_of_pos _ (by simp)
    · have hx : x.id ≠ a.id := by
        intro he
        exact h.1 (he ▸ List.mem_map_of_mem _ hxs)
      rw [List.find?_cons_of_neg _ (by simp [hx])]
      exact ih h.2 hxs

theorem get_due_ids_nodup (st : BotState) (nowUtc : Int) (limit : Nat)
    (h : (st.plans.map fun p => p.id).Nodup) :
    ((get_due_plans st nowUtc limit).map fun p => p.id).Nodup := by
  unfold get_due_plans
  have h1 : ((st.plans.filter fun p =>
      decide (p.status = STATUS_PENDING ∧ p.sendAtUtc ≤ nowUtc)).map
        fun p => p.id).Nodup :=
    List.Nodup.sublist (List.Sublist.map _ (List.filter_sublist st.plans)) h
  have h2 : (((st.plans.filter fun p =>
      decide (p.status = STATUS_PENDING ∧ p.sendAtUtc ≤ nowUtc)).insertionSort
        plan_le).map fun p => p.id).Nodup :=
    ((List.perm_insertionSort plan_le _).map _).symm.nodup h1
  exact List.Nodup.sublist (List.Sublist.map _ (List.take_sublist limit _)) h2

theorem mem_get_due (st : BotState) (nowUtc : Int) (limit : Nat) (p : PlanRow)
    (hp : p ∈ get_due_plans st nowUtc limit) :
    p ∈ st.plans ∧ p.status = STATUS_PENDING := by
  have h1 := List.mem_of_mem_take hp
  have h2 := (List.mem_insertionSort plan_le).mp h1
  have h3 := List.mem_filter.mp h2
  exact ⟨h3.1, (of_decide_eq_true h3.2).1⟩

/-- C8: if the connector's text send for a due plan fails (raises) while
every policy guard passed, the failure is caught per plan: the plan's status
is still `pending` after the whole tick, and the remaining due plans of the
batch are still processed (the tick equals running the rest of the batch
from the state reached after the failed plan).  `pre`/`post` split the due
batch around the failing plan; ids are assumed unique, as the AUTOINCREMENT
key guarantees. -/
theorem C8_send_failure_keeps_pending (S : Settings) (O : Oracles)
    (nowUtc : Int) (st : BotState) (pre post : List PlanRow) (plan : PlanRow)
    (conv : ConvRow)
    (hids : (st.plans.map fun p => p.id).Nodup)
    (hdue : get_due_plans_default st nowUtc = pre ++ plan :: post)
    (hconv : get_conversation (run_plans S O nowUtc pre st) plan.chatId =
      some conv)
    (hpro : should_schedule_proactive S conv.chatType = true)
    (hdaily : (refresh_daily_counter (run_plans S O nowUtc pre st) plan.chatId
        ((nowUtc + S.tzOffset) / 86400) conv.dailyDate conv.dailyCount).2 <
      S.maxPerDay)
    (hquiet : is_within_quiet_hours (nowUtc + S.tzOffset) S.quietBlocks = false)
    (hcool : ∀ cu, next_after_cooldown conv.lastBotTsUtc S.cooldownHours =
      some cu → cu ≤ nowUtc)
    (hsend : O.sendOk plan.id = false) :
    statusOf (process_due_plans S O nowUtc st).plans plan.id =
      some STATUS_PENDING ∧
    process_due_plans S O nowUtc st =
      run_plans S O nowUtc post
        (handle_plan_e S O nowUtc plan (run_plans S O nowUtc pre st)).1 := by
  have hproc : process_due_plans S O nowUtc st =
      run_plans S O nowUtc post
        (handle_plan_e S O nowUtc plan (run_plans S O nowUtc pre st)).1 := by
    unfold process_due_plans run_plans
    rw [hdue, List.foldl_append]
    rfl
  refine ⟨?_, hproc⟩
  have hduenodup : ((pre ++ plan :: post).map fun p => p.id).Nodup := by
    rw [← hdue]
    exact get_due_ids_nodup st nowUtc 50 hids
  have htail : ((plan :: post).map fun p => p.id).Nodup :=
    List.Nodup.sublist
      (List.Sublist.map _ (List.sublist_append_right pre (plan :: post)))
      hduenodup
  rw [List.map_cons, List.nodup_cons] at htail
  have hpost : ∀ q ∈ post, plan.id ≠ q.id := by
    intro q hq he
    exact htail.1 (he ▸ List.mem_map_of_mem _ hq)
  have hpre : ∀ q ∈ pre, plan.id ≠ q.id := by
    rw [List.map_append] at hduenodup
    have hdisj := List.disjoint_of_nodup_append hduenodup
    intro q hq he
    have hqmem : plan.id ∈ pre.map fun p => p.id := by
      rw [he]
      exact List.mem_map_of_mem _ hq
    exact hdisj hqmem (by rw [List.map_cons]; exact List.mem_cons_self _ _)
  have hmem : plan ∈ st.plans ∧ plan.status = STATUS_PENDING := by
    refine mem_get_due st nowUtc 50 plan ?_
    show plan ∈ get_due_plans_default st nowUtc
    rw [hdue]
    exact List.mem_append_right pre (List.mem_cons_self plan post)
  have hst : statusOf st.plans plan.id = some STATUS_PENDING := by
    unfold statusOf
    rw [find?_eq_of_nodup st.plans hids plan hmem.1, Option.map_some', hmem.2]
  have h1 : statusOf (run_plans S O nowUtc pre st).plans plan.id =
      some STATUS_PENDING := by
    rw [run_plans_statusOf_ne S O nowUtc pre st plan.id hpre]
    exact hst
  have h2 : statusOf (handle_plan_e S O nowUtc plan
      (run_plans S O nowUtc pre st)).1.plans plan.id = some STATUS_PENDING := by
    unfold handle_plan_e
    rw [hconv]
    show statusOf (handle_plan_conv S O nowUtc plan conv
      (run_plans S O nowUtc pre st)).1.plans plan.id = some STATUS_PENDING
    unfold handle_plan_conv
    rw [if_neg (by simp [hpro]), if_neg (by omega), if_neg (by simp [hquiet])]
    have hsendcase : ∀ dc : Nat, statusOf (handle_plan_send O nowUtc plan
        (refresh_daily_counter (run_plans S O nowUtc pre st) plan.chatId
          ((nowUtc + S.tzOffset) / 86400) conv.dailyDate conv.dailyCount).1
        dc ((nowUtc + S.tzOffset) / 86400)).1.plans plan.id =
        some STATUS_PENDING := by
      intro dc
      unfold handle_plan_send
      rw [if_pos (by simp [hsend])]
      show statusOf (refresh_daily_counter (run_plans S O nowUtc pre st)
        plan.chatId ((nowUtc + S.tzOffset) / 86400) conv.dailyDate
        conv.dailyCount).1.plans plan.id = some STATUS_PENDING
      rw [refresh_plans]
      exact h1
    split
    · rename_i cu hcu
      rw [if_neg (by have := hcool cu hcu; omega)]
      exact hsendcase _
    · exact hsendcase _
  rw [hproc, run_plans_statusOf_ne S O nowUtc post _ plan.id hpost]
  exact h2

/-- Witness for C8: one due pending plan whose text send fails; after the
tick it is still `pending`. -/
theorem C8_witness :
    statusOf (process_due_plans ⟨true, 1, 6, 0, 2, false, [], 0⟩
      ⟨fun _ => false, fun _ => false, fun _ => none, fun _ => true⟩ 100
      { plans := [{ id := 1, chatId := "c", sendAtUtc := 0, text := "m",
                    gifTag := none, status := STATUS_PENDING, reason := "",
                    confidence := 1, createdAtUtc := 0, updatedAtUtc := 0 }],
        convs := [⟨"c", "direct", "", none, none, 0, some 0⟩],
        messages := [], nextPlanId := 2, outbox := [] }).plans 1 =
      some STATUS_PENDING :=
  (C8_send_failure_keeps_pending ⟨true, 1, 6, 0, 2, false, [], 0⟩
    ⟨fun _ => false, fun _ => false, fun _ => none, fun _ => true⟩ 100
    { plans := [{ id := 1, chatId := "c", sendAtUtc := 0, text := "m",
                  gifTag := none, status := STATUS_PENDING, reason := "",
                  confidence := 1, createdAtUtc := 0, updatedAtUtc := 0 }],
      convs := [⟨"c", "direct", "", none, none, 0, some 0⟩],
      messages := [], nextPlanId := 2, outbox := [] }
    [] []
    { id := 1, chatId := "c", sendAtUtc := 0, text := "m",
      gifTag := none, status := STATUS_PENDING, reason := "",
      confidence := 1, createdAtUtc := 0, updatedAtUtc := 0 }
    ⟨"c", "direct", "", none, none, 0, some 0⟩
    (by decide) (by decide) (by decide) (by decide) (by decide) (by decide)
    (by intro cu h; simp [next_after_cooldown] at h) rfl).1
